import Mathlib

/-
Verification of the ZON codec (src/zon-format/src/zon/): a shallow embedding
of `encoder.py`, `decoder.py`, `constants.py` and `exceptions.py` in Lean 4,
together with theorems settling the specification claims about round-tripping,
strict mode, determinism, NaN handling, prototype-pollution filtering, size
limits, the unflattener's collision policy, empty-cell synthesis, and ENUM
index resolution.

Modelling conventions:
- Python values are the inductive `Value` below; Python dicts are
  insertion-ordered association lists (the Python 3.7+ guarantee).
- Python floats are `PFloat`: finite values are exact rationals (IEEE-754
  rounding of individual operations is not modelled; no claim below depends
  on finite-float precision), plus `nan`, `inf`, `ninf`.
- Python exceptions are the `PyErr` error type; functions that can raise
  return `Except PyErr _`.
- `constants.py` in the repository defines only part of the names the codec
  uses (`VERSION`, the limits, `DICT_REF_PREFIX`, `ANCHOR_PREFIX`,
  `REPEAT_SUFFIX`, `INLINE_THRESHOLD_ROWS`, `DEFAULT_ANCHOR_INTERVAL`).
  The remaining marker constants referenced by `encoder.py`/`decoder.py`
  (`HEADER_PREFIX`, `SEPARATOR`, `DICT_MARKER`, `SCHEMA_START`, `SCHEMA_END`,
  the rule keywords, `ANCHOR_MARKER`) are missing from the repository's
  source and are modelled from the spec's wire grammar, as marked below.
-/

namespace Zon

/-- Python exceptions that the embedded codec can raise. -/
inductive PyErr
| typeError
| valueError
| indexError
| keyError
| zeroDivisionError
deriving DecidableEq, Repr

/-- An executable exact fraction (numerator over positive denominator, not
necessarily reduced): the carrier for finite Python floats and for the
encoder's cost arithmetic.  Every operation below keeps the denominator
positive; comparisons and equality are by cross-multiplication, so they
are value-level, independent of the representation. -/
structure Frac where
  num : ℤ
  den : ℤ
deriving DecidableEq, Repr

namespace Frac

/-- Embed an integer. -/
def ofInt (n : ℤ) : Frac := ⟨n, 1⟩

/-- Embed a natural. -/
def ofNat (n : ℕ) : Frac := ⟨(n : ℤ), 1⟩

/-- Addition. -/
def add (a b : Frac) : Frac := ⟨a.num * b.den + b.num * a.den, a.den * b.den⟩

/-- Negation. -/
def neg (a : Frac) : Frac := ⟨-a.num, a.den⟩

/-- Subtraction. -/
def sub (a b : Frac) : Frac := add a (neg b)

/-- Multiplication. -/
def mul (a b : Frac) : Frac := ⟨a.num * b.num, a.den * b.den⟩

/-- Reciprocal (callers divide only by non-zero values; on zero this yields
a zero denominator, matching that Python would already have raised). -/
def inv (a : Frac) : Frac := if a.num < 0 then ⟨-a.den, -a.num⟩ else ⟨a.den, a.num⟩

/-- Division. -/
def div (a b : Frac) : Frac := mul a (inv b)

/-- Value equality (cross-multiplication). -/
def beq (a b : Frac) : Bool := a.num * b.den = b.num * a.den

/-- Value strict order (denominators are positive). -/
def blt (a b : Frac) : Bool := a.num * b.den < b.num * a.den

/-- Zero test. -/
def isZero (a : Frac) : Bool := a.num = 0

/-- Positivity test. -/
def isPos (a : Frac) : Bool := 0 < a.num

/-- Absolute value. -/
def absF (a : Frac) : Frac := ⟨if a.num < 0 then -a.num else a.num, a.den⟩

/-- Floor (denominator positive, so `Int.fdiv` is the floor). -/
def floor (a : Frac) : ℤ := a.num.fdiv a.den

/-- Truncation toward zero (Python `int()` on a float). -/
def trunc (a : Frac) : ℤ := a.num.tdiv a.den

/-- Integrality test (`float.is_integer`). -/
def isInt (a : Frac) : Bool := a.num % a.den = 0

/-- Python `round()` to an integer: half-to-even. -/
def roundHalfEven (a : Frac) : ℤ :=
  let fl := floor a
  let r2 := 2 * (a.num - fl * a.den)
  if r2 < a.den then fl
  else if a.den < r2 then fl + 1
  else if fl % 2 = 0 then fl else fl + 1

end Frac

/-- Powers of ten (structural, so it reduces). -/
def tenPowNat : ℕ → ℤ
| 0 => 1
| k + 1 => 10 * tenPowNat k

/-- Model of a Python float: finite values are exact fractions, plus the
IEEE special values. -/
inductive PFloat
| fin (q : Frac)
| nan
| inf
| ninf
deriving DecidableEq, Repr

namespace PFloat

/-- Negation of a Python float. -/
def neg : PFloat → PFloat
| .fin q => .fin q.neg
| .nan => .nan
| .inf => .ninf
| .ninf => .inf

/-- Addition of Python floats (IEEE special-value rules). -/
def add : PFloat → PFloat → PFloat
| .nan, _ => .nan
| _, .nan => .nan
| .inf, .ninf => .nan
| .ninf, .inf => .nan
| .inf, _ => .inf
| _, .inf => .inf
| .ninf, _ => .ninf
| _, .ninf => .ninf
| .fin a, .fin b => .fin (a.add b)

/-- Subtraction of Python floats. -/
def sub (a b : PFloat) : PFloat := add a (neg b)

/-- Multiplication of Python floats (IEEE special-value rules; `inf * 0`
is `nan`). -/
def mul : PFloat → PFloat → PFloat
| .nan, _ => .nan
| _, .nan => .nan
| .inf, .fin q => if q.isZero then .nan else if q.isPos then .inf else .ninf
| .ninf, .fin q => if q.isZero then .nan else if q.isPos then .ninf else .inf
| .fin q, .inf => if q.isZero then .nan else if q.isPos then .inf else .ninf
| .fin q, .ninf => if q.isZero then .nan else if q.isPos then .ninf else .inf
| .inf, .inf => .inf
| .inf, .ninf => .ninf
| .ninf, .inf => .ninf
| .ninf, .ninf => .inf
| .fin a, .fin b => .fin (a.mul b)

/-- Division of Python floats.  Python raises `ZeroDivisionError` when the
divisor is (finite) zero, even for `nan / 0.0`. -/
def div (a b : PFloat) : Except PyErr PFloat :=
  match b with
  | .fin q =>
    if q.isZero then .error .zeroDivisionError
    else
      match a with
      | .nan => .ok .nan
      | .inf => .ok (if q.isPos then .inf else .ninf)
      | .ninf => .ok (if q.isPos then .ninf else .inf)
      | .fin p => .ok (.fin (p.div q))
  | .nan => .ok .nan
  | .inf =>
    match a with
    | .nan => .ok .nan
    | .inf => .ok .nan
    | .ninf => .ok .nan
    | .fin _ => .ok (.fin (Frac.ofInt 0))
  | .ninf =>
    match a with
    | .nan => .ok .nan
    | .inf => .ok .nan
    | .ninf => .ok .nan
    | .fin _ => .ok (.fin (Frac.ofInt 0))

/-- Python `==` on floats: `nan` is unequal to everything, itself included. -/
def eq : PFloat → PFloat → Bool
| .fin a, .fin b => a.beq b
| .inf, .inf => true
| .ninf, .ninf => true
| _, _ => false

/-- Whether a Python float is finite. -/
def isFinite : PFloat → Bool
| .fin _ => true
| _ => false

/-- Python `float.is_integer`: finite with zero fractional part. -/
def isInteger : PFloat → Bool
| .fin q => q.isInt
| _ => false

end PFloat

/-- The value domain of the codec: Python `None`, `bool`, `int`, `float`,
`str`, `list` and (insertion-ordered) `dict` with string keys. -/
inductive Value
| null
| bool (b : Bool)
| int (n : ℤ)
| float (f : PFloat)
| str (s : String)
| list (l : List Value)
| map (m : List (String × Value))
deriving Repr

/-- Numeric view matching Python's `isinstance(v, (int, float))`, which
includes `bool` (a subclass of `int`). -/
def numViewB : Value → Option PFloat
| .bool b => some (.fin (Frac.ofInt (if b then 1 else 0)))
| .int n => some (.fin (Frac.ofInt n))
| .float f => some f
| _ => none

/-- Numeric view matching `isinstance(v, (int, float)) and not
isinstance(v, bool)` (the encoder's `nums` filter, encoder.py:155). -/
def numViewNB : Value → Option PFloat
| .int n => some (.fin (Frac.ofInt n))
| .float f => some f
| _ => none

mutual

/-- Python `==` on values: numeric types (bool/int/float) compare by value,
`nan` is unequal to itself, strings/lists compare structurally, dicts
compare by key set and per-key value (order-insensitively).  Object
identity (`is`), which short-circuits Python's container lookups even for
`nan`, is not modelled. -/
def pyEq : Value → Value → Bool
| .null, .null => true
| .str a, .str b => a = b
| .list a, .list b => pyEqList a b
| .map a, .map b => a.length = b.length && pyEqDictSub a b
| a, b =>
  match numViewB a, numViewB b with
  | some x, some y => PFloat.eq x y
  | _, _ => false

/-- Elementwise Python `==` on lists. -/
def pyEqList : List Value → List Value → Bool
| [], [] => true
| a :: as', b :: bs => pyEq a b && pyEqList as' bs
| _, _ => false

/-- One direction of dict equality: every key of the first dict bound in
the second to an equal value (with the size check in `pyEq`, this is full
dict equality, keys being unique). -/
def pyEqDictSub : List (String × Value) → List (String × Value) → Bool
| [], _ => true
| (k, v) :: rest, b =>
  (match b.find? (fun p => p.1 = k) with
   | some p => pyEq v p.2
   | none => false) && pyEqDictSub rest b

end

/-- Python truthiness test (`not v` in the source negates this). -/
def pyFalsy : Value → Bool
| .null => true
| .bool b => !b
| .int n => n = 0
| .float f => (match f with | .fin q => q.isZero | _ => false)
| .str s => s = ""
| .list l => l.isEmpty
| .map m => m.isEmpty

/-! ### Character and string utilities (models of the Python primitives) -/

/-- Python `str.isspace` characters (ASCII range). -/
def pyIsSpace (c : Char) : Bool :=
  c = ' ' || c = '\t' || c = '\n' || c = '\r' || c = '\x0b' || c = '\x0c'

/-- Python `str.strip()` with no argument: drop whitespace from both ends. -/
def pyStripL (l : List Char) : List Char :=
  ((l.dropWhile pyIsSpace).reverse.dropWhile pyIsSpace).reverse

/-- Python `str.split(sep)` for a one-character separator: splits at every
occurrence, keeping empty pieces (`"".split(c) == [""]`). -/
def splitOnChar (c : Char) : List Char → List (List Char)
| [] => [[]]
| x :: xs =>
  match splitOnChar c xs with
  | h :: t => if x = c then [] :: h :: t else (x :: h) :: t
  | [] => [[x]]

/-- Python `str.split(c, 1)` after a containment check: the text before the
first `c` and the text after it (identity, empty tail when `c` is absent). -/
def splitFirst (c : Char) : List Char → (List Char × List Char)
| [] => ([], [])
| x :: xs => if x = c then ([], xs) else
    (fun r => (x :: r.1, r.2)) (splitFirst c xs)

/-- Python `str.find` for a single-character needle: first index or `-1`. -/
def pyFind (c : Char) : List Char → ℤ
| [] => -1
| x :: xs => if x = c then 0 else
    (fun r => if r < 0 then -1 else r + 1) (pyFind c xs)

/-- Python `str.rfind` for a single-character needle: last index or `-1`. -/
def pyRfind (c : Char) (l : List Char) : ℤ :=
  (fun r => if r < 0 then -1 else (l.length : ℤ) - 1 - r) (pyFind c l.reverse)

/-- Python slicing `l[a:b]` with negative-index normalisation and clamping. -/
def pySlice (l : List Char) (a b : ℤ) : List Char :=
  let n : ℤ := l.length
  let lo := min (max (if a < 0 then n + a else a) 0) n
  let hi := min (max (if b < 0 then n + b else b) 0) n
  if hi ≤ lo then [] else ((l.drop lo.toNat).take (hi - lo).toNat)

/-- Python `str.rfind(c, 0, hi)`: last index of `c` inside `l[0:hi]`, or `-1`. -/
def pyRfindIn (c : Char) (l : List Char) (hi : ℤ) : ℤ :=
  pyRfind c (pySlice l 0 hi)

/-- Python `str.isdigit` over ASCII digits: non-empty and all digits. -/
def isdigitL (l : List Char) : Bool :=
  !l.isEmpty && l.all Char.isDigit

/-- Numeric value of an ASCII digit string. -/
def natOfDigits (l : List Char) : ℕ :=
  l.foldl (fun acc c => acc * 10 + (c.toNat - '0'.toNat)) 0

mutual

/-- Valid Python numeric digit group: digits with single underscores strictly
between digits (`int("1_0") == 10`, `int("_1")`/`int("1_")`/`int("1__0")`
fail). -/
def digitsU : List Char → Bool
| [] => false
| c :: rest => c.isDigit && digitsURest rest

/-- Tail of `digitsU`. -/
def digitsURest : List Char → Bool
| [] => true
| '_' :: c :: rest => c.isDigit && digitsURest rest
| '_' :: [] => false
| c :: rest => c.isDigit && digitsURest rest

end

/-- Drop the underscores of a digit group. -/
def stripUnderscores (l : List Char) : List Char :=
  l.filter (fun c => c ≠ '_')

/-- Optional leading sign of a numeric literal. -/
def pySign : List Char → Bool × List Char
| '-' :: rest => (true, rest)
| '+' :: rest => (false, rest)
| l => (false, l)

/-- Model of Python `int(s)` on ASCII text: strips whitespace, accepts an
optional sign and an underscore-grouped digit run; anything else raises
`ValueError` (`none` here). -/
def pyParseInt (l : List Char) : Option ℤ :=
  let signed := pySign (pyStripL l)
  if digitsU signed.2 then
    let v : ℤ := natOfDigits (stripUnderscores signed.2)
    some (if signed.1 then -v else v)
  else none

/-- Integer power of ten as a fraction. -/
def tenPow (e : ℤ) : Frac :=
  if e < 0 then ⟨1, tenPowNat (-e).toNat⟩ else ⟨tenPowNat e.toNat, 1⟩

/-- Model of Python `float(s)` on ASCII text: strips whitespace, accepts an
optional sign, the case-insensitive words `inf`/`infinity`/`nan`, or a
decimal literal `[digits][.digits][(e|E)[sign]digits]` with at least one
mantissa digit (digit groups may use underscores).  Finite results are the
exact rational (double rounding and overflow-to-infinity not modelled). -/
def pyParseFloat (l : List Char) : Option PFloat :=
  let signed := pySign (pyStripL l)
  let neg := signed.1
  let low := signed.2.map Char.toLower
  if low = "inf".toList || low = "infinity".toList then
    some (if neg then .ninf else .inf)
  else if low = "nan".toList then some .nan
  else
    let eSplit : List Char × Option (List Char) :=
      if signed.2.contains 'e' || signed.2.contains 'E' then
        let p := splitFirst 'e' (signed.2.map (fun c => if c = 'E' then 'e' else c))
        (p.1, some p.2)
      else (signed.2, none)
    let mant := eSplit.1
    let dotSplit : List Char × Option (List Char) :=
      if mant.contains '.' then
        let p := splitFirst '.' mant
        (p.1, some p.2)
      else (mant, none)
    let ip := dotSplit.1
    let fp := (dotSplit.2).getD []
    let ipOk := ip.isEmpty || digitsU ip
    let fpOk := fp.isEmpty || digitsU fp
    let fpNoDot := (dotSplit.2).isNone || !fp.contains '.'
    let haveDigit := !ip.isEmpty || !fp.isEmpty
    let expVal : Option ℤ :=
      match eSplit.2 with
      | none => some 0
      | some ex =>
        let exSigned := pySign ex
        if digitsU exSigned.2 then
          let v : ℤ := natOfDigits (stripUnderscores exSigned.2)
          some (if exSigned.1 then -v else v)
        else none
    match expVal with
    | none => none
    | some e =>
      if ipOk && fpOk && fpNoDot && haveDigit then
        let fd := stripUnderscores fp
        let m : Frac := (Frac.ofNat (natOfDigits (stripUnderscores ip))).add
          ((Frac.ofNat (natOfDigits fd)).div ⟨tenPowNat fd.length, 1⟩)
        some (.fin ((if neg then m.neg else m).mul (tenPow e)))
      else none

/-! ### Number and string rendering (models of `str`, `repr`, `json.dumps`) -/

/-- Fractional decimal digits of `rem / den`, up to `fuel` places. -/
def fracDigits : ℕ → ℕ → ℕ → List Char
| 0, _, _ => []
| _, 0, _ => []
| fuel + 1, rem, den =>
  let rem10 := rem * 10
  let d := rem10 / den
  Char.ofNat ('0'.toNat + d) :: fracDigits fuel (rem10 % den) den

/-- Decimal rendering of a non-negative rational with up to 17 fractional
digits, trailing zeros trimmed but at least one digit kept.  This models
Python's shortest-round-trip `repr` of a double on the exact fraction
carrier (the exponent form used for very large/small magnitudes is not
modelled; no claim depends on finite-float rendering). -/
def ratDecStr (q : Frac) : String :=
  let sign := if q.num < 0 then "-" else ""
  let n := q.num.natAbs
  let d := q.den.natAbs
  let ipart := toString (n / d)
  let frac := fracDigits 17 (n % d) d
  let trimmed := (frac.reverse.dropWhile (fun c => c = '0')).reverse
  let fracStr := if trimmed.isEmpty then "0" else String.mk trimmed
  sign ++ ipart ++ "." ++ fracStr

/-- Model of Python `str`/`repr` on a float. -/
def pyFloatStr : PFloat → String
| .fin q => ratDecStr q
| .nan => "nan"
| .inf => "inf"
| .ninf => "-inf"

/-- Escape one character for Python `repr` of a string, given the chosen
quote character. -/
def reprEscapeChar (qc : Char) (c : Char) : String :=
  if c = '\\' then "\\\\"
  else if c = qc then "\\" ++ String.mk [qc]
  else if c = '\n' then "\\n"
  else if c = '\r' then "\\r"
  else if c = '\t' then "\\t"
  else if c.toNat < 32 || c.toNat = 127 then
    "\\x" ++ String.mk [Nat.digitChar (c.toNat / 16), Nat.digitChar (c.toNat % 16)]
  else String.mk [c]

/-- Model of Python `repr` on a string: single quotes unless the text has a
single quote and no double quote. -/
def pyStrRepr (s : String) : String :=
  let qc := if s.toList.contains '\'' && !s.toList.contains '"' then '"' else '\''
  String.mk [qc] ++ String.join (s.toList.map (reprEscapeChar qc)) ++ String.mk [qc]

mutual

/-- Model of Python `str(v)` (containers render their elements via `repr`). -/
def pyStr : Value → String
| .null => "None"
| .bool b => if b then "True" else "False"
| .int n => toString n
| .float f => pyFloatStr f
| .str s => s
| .list l => "[" ++ String.intercalate ", " (pyReprList l) ++ "]"
| .map m => "\x7b" ++ String.intercalate ", " (pyReprDict m) ++ "\x7d"

/-- Model of Python `repr(v)` (identical to `str` except on strings). -/
def pyRepr : Value → String
| .null => "None"
| .bool b => if b then "True" else "False"
| .int n => toString n
| .float f => pyFloatStr f
| .str s => pyStrRepr s
| .list l => "[" ++ String.intercalate ", " (pyReprList l) ++ "]"
| .map m => "\x7b" ++ String.intercalate ", " (pyReprDict m) ++ "\x7d"

/-- Container elements, via `repr`. -/
def pyReprList : List Value → List String
| [] => []
| v :: rest => pyRepr v :: pyReprList rest

/-- Dict items `'key': value`, via `repr`. -/
def pyReprDict : List (String × Value) → List String
| [] => []
| (k, v) :: rest => (pyStrRepr k ++ ": " ++ pyRepr v) :: pyReprDict rest

end

/-- Hex digit (lowercase) for JSON `\uXXXX` escapes. -/
def hexDigit (n : ℕ) : Char := Nat.digitChar (n % 16)

/-- Four-digit lowercase hex. -/
def hex4 (n : ℕ) : String :=
  String.mk [hexDigit (n / 4096), hexDigit (n / 256), hexDigit (n / 16), hexDigit n]

/-- Escape one character for `json.dumps` with `ensure_ascii=True` (the
Python default): standard short escapes, `\uXXXX` for other control or
non-ASCII characters, surrogate pairs above the BMP. -/
def jsonEscapeChar (c : Char) : String :=
  if c = '"' then "\\\""
  else if c = '\\' then "\\\\"
  else if c = '\n' then "\\n"
  else if c = '\r' then "\\r"
  else if c = '\t' then "\\t"
  else if c = '\x08' then "\\b"
  else if c = '\x0c' then "\\f"
  else if c.toNat < 32 then "\\u" ++ hex4 c.toNat
  else if c.toNat < 127 then String.mk [c]
  else if c.toNat ≤ 0xffff then "\\u" ++ hex4 c.toNat
  else
    let v := c.toNat - 0x10000
    "\\u" ++ hex4 (0xd800 + v / 1024) ++ "\\u" ++ hex4 (0xdc00 + v % 1024)

/-- Model of `json.dumps` on a string (a JSON string literal). -/
def jsonStrLit (s : String) : String :=
  "\"" ++ String.join (s.toList.map jsonEscapeChar) ++ "\""

mutual

/-- Model of `json.dumps(v)` with default separators (used by the encoder
only to count distinct values for the LIQUID strategy). -/
def jsonDumps : Value → String
| .null => "null"
| .bool b => if b then "true" else "false"
| .int n => toString n
| .float f =>
  match f with
  | .nan => "NaN"
  | .inf => "Infinity"
  | .ninf => "-Infinity"
  | .fin q => ratDecStr q
| .str s => jsonStrLit s
| .list l => "[" ++ String.intercalate ", " (jsonDumpsList l) ++ "]"
| .map m => "\x7b" ++ String.intercalate ", " (jsonDumpsDict m) ++ "\x7d"

/-- Array elements. -/
def jsonDumpsList : List Value → List String
| [] => []
| v :: rest => jsonDumps v :: jsonDumpsList rest

/-- Object members `"key": value`. -/
def jsonDumpsDict : List (String × Value) → List String
| [] => []
| (k, v) :: rest => (jsonStrLit k ++ ": " ++ jsonDumps v) :: jsonDumpsDict rest

end

/-- Value of a hex digit character, or `none`. -/
def hexCharVal (c : Char) : Option ℕ :=
  if '0' ≤ c ∧ c ≤ '9' then some (c.toNat - '0'.toNat)
  else if 'a' ≤ c ∧ c ≤ 'f' then some (c.toNat - 'a'.toNat + 10)
  else if 'A' ≤ c ∧ c ≤ 'F' then some (c.toNat - 'A'.toNat + 10)
  else none

/-- Inner loop of strict `json.loads` on a string literal: the characters
after the opening quote.  Raw control characters are rejected (strict mode);
the closing quote must end the input.  Lone surrogate escapes are a parse
failure here (Lean `Char` cannot carry them; `json.loads` would keep them —
no claim depends on that corner). -/
def jsonStrGo : List Char → List Char → Option String
| acc, '"' :: rest => if rest.isEmpty then some (String.mk acc.reverse) else none
| acc, '\\' :: e :: rest =>
  (match e with
   | '"' => jsonStrGo ('"' :: acc) rest
   | '\\' => jsonStrGo ('\\' :: acc) rest
   | '/' => jsonStrGo ('/' :: acc) rest
   | 'b' => jsonStrGo ('\x08' :: acc) rest
   | 'f' => jsonStrGo ('\x0c' :: acc) rest
   | 'n' => jsonStrGo ('\n' :: acc) rest
   | 'r' => jsonStrGo ('\r' :: acc) rest
   | 't' => jsonStrGo ('\t' :: acc) rest
   | 'u' =>
     match rest with
     | h1 :: h2 :: h3 :: h4 :: rest' =>
       (match (String.mk [h1, h2, h3, h4]).toList.foldl
          (fun acc? c => acc?.bind (fun a =>
            (hexCharVal c).map (fun d => a * 16 + d))) (some 0) with
        | some n =>
          if n < 0xd800 ∨ (0xe000 ≤ n ∧ n < 0x110000) then
            jsonStrGo (Char.ofNat n :: acc) rest'
          else none
        | none => none)
     | _ => none
   | _ => none)
| acc, c :: rest => if c.toNat < 32 then none else jsonStrGo (c :: acc) rest
| _, [] => none

/-- Model of `json.loads` restricted to a single string literal token, as the
decoder uses it on tokens that start and end with `"`: `some` only when the
whole input is one valid JSON string. -/
def jsonLoadsStr (l : List Char) : Option String :=
  match l with
  | '"' :: rest => jsonStrGo [] rest
  | _ => none

/-! ### Protocol constants (`constants.py`)

The first group is verbatim from `src/zon/constants.py`.  The second group
is `Modelled from the spec:` the marker constants that `encoder.py` and
`decoder.py` reference but that `constants.py` never defines (the module
would raise `NameError` at call time); their values follow the spec's wire
grammar (§6): header marker `@`, dictionary marker `#`, brace-delimited
schema, rule keywords `S L R P M E V Δ`.  `SEPARATOR` is a single constant
used by the source both between header segments and between inline
`key:value` pairs; the spec's `kv_line` grammar fixes the inline separator
to `,`, which is the value chosen here. -/

def VERSION : String := "1.0.3"

def DEFAULT_ANCHOR_INTERVAL : ℕ := 100

def MAX_DOCUMENT_SIZE : ℕ := 100 * 1024 * 1024

def MAX_LINE_LENGTH : ℕ := 1024 * 1024

def MAX_ARRAY_LENGTH : ℕ := 1000000

def MAX_OBJECT_KEYS : ℕ := 100000

def MAX_NESTING_DEPTH : ℕ := 100

def INLINE_THRESHOLD_ROWS : ℕ := 0

def DICT_REF_PREFIX' : String := "%"

def ANCHOR_PREFIX' : String := "$"

def REPEAT_SUFFIX : String := "x"

/-- Modelled from the spec: `HEADER_PREFIX`, missing from `constants.py`. -/
def HEADER_PREFIX' : String := "@"

/-- Modelled from the spec: `SEPARATOR`, missing from `constants.py` (see
the section comment). -/
def SEPARATOR : String := ","

/-- Modelled from the spec: `DICT_MARKER`, missing from `constants.py`. -/
def DICT_MARKER : String := "#"

/-- Modelled from the spec: `SCHEMA_START`, missing from `constants.py`. -/
def SCHEMA_START : String := "\x7b"

/-- Modelled from the spec: `SCHEMA_END`, missing from `constants.py`. -/
def SCHEMA_END : String := "\x7d"

/-- Modelled from the spec: `ANCHOR_MARKER`, missing from `constants.py`. -/
def ANCHOR_MARKER : String := "@"

/-- Modelled from the spec: `SOLID_KEYWORD`, missing from `constants.py`. -/
def SOLID_KEYWORD : String := "S"

/-- Modelled from the spec: `LIQUID_KEYWORD`, missing from `constants.py`. -/
def LIQUID_KEYWORD : String := "L"

/-- Modelled from the spec: `RANGE_KEYWORD`, missing from `constants.py`. -/
def RANGE_KEYWORD : String := "R"

/-- Modelled from the spec: `PATTERN_KEYWORD`, missing from `constants.py`. -/
def PATTERN_KEYWORD : String := "P"

/-- Modelled from the spec: `MULT_KEYWORD`, missing from `constants.py`. -/
def MULT_KEYWORD : String := "M"

/-- Modelled from the spec: `ENUM_KEYWORD`, missing from `constants.py`. -/
def ENUM_KEYWORD : String := "E"

/-- Modelled from the spec: `VALUE_KEYWORD`, missing from `constants.py`. -/
def VALUE_KEYWORD : String := "V"

/-- Modelled from the spec: `DELTA_KEYWORD`, missing from `constants.py`. -/
def DELTA_KEYWORD : String := "Δ"

/-! ### CSV line parsing (model of `csv.reader` on one line) -/

/-- Parser mode for one CSV line. -/
inductive CsvMode
| plain
| quoted
| tail
deriving Repr

/-- One line through Python's default csv dialect: fields split on `,`;
a field beginning with `"` is quoted, `""` inside it is a literal quote;
characters after the closing quote are appended verbatim until the next
comma; a quote inside an unquoted field is literal. -/
def csvGo : CsvMode → List Char → List Char → List String → List String
| _, [], cur, fields => fields ++ [String.mk cur.reverse]
| .plain, ',' :: rest, cur, fields =>
  csvGo .plain rest [] (fields ++ [String.mk cur.reverse])
| .plain, '"' :: rest, cur, fields =>
  if cur.isEmpty then csvGo .quoted rest cur fields
  else csvGo .plain rest ('"' :: cur) fields
| .plain, c :: rest, cur, fields => csvGo .plain rest (c :: cur) fields
| .quoted, '"' :: '"' :: rest, cur, fields => csvGo .quoted rest ('"' :: cur) fields
| .quoted, '"' :: rest, cur, fields => csvGo .tail rest cur fields
| .quoted, c :: rest, cur, fields => csvGo .quoted rest (c :: cur) fields
| .tail, ',' :: rest, cur, fields =>
  csvGo .plain rest [] (fields ++ [String.mk cur.reverse])
| .tail, c :: rest, cur, fields => csvGo .tail rest (c :: cur) fields

/-- Fields of one CSV line (the line is known non-empty at every call site
that reaches this directly). -/
def csvParseLine (l : List Char) : List String :=
  csvGo .plain l [] []

/-- Model of `list(csv.reader([text]))[0]`: an empty text yields no rows, so
the `[0]` raises `IndexError`. -/
def csvFirstRow (l : List Char) : Except PyErr (List String) :=
  if l.isEmpty then .error .indexError else .ok (csvParseLine l)

/-! ### Token packing and unpacking -/

/-- Safe-string test `^[a-zA-Z0-9_\-\.]+$` (encoder.py:10). -/
def safeStrOk (s : String) : Bool :=
  !s.isEmpty && s.toList.all (fun c =>
    c.isAlpha || c.isDigit || c = '_' || c = '-' || c = '.')

/-- Embedding of `ZonEncoder._pack_str` on an actual string argument (total: the regex
match cannot raise). -/
def packStrS (s : String) (forceQuote : Bool) : String :=
  if s = "" then "\"\""
  else if !forceQuote && safeStrOk s && s ≠ "null" && s ≠ "T" && s ≠ "F" then s
  else jsonStrLit s

/-- Embedding of `ZonEncoder._pack_str` on an arbitrary value, as the ENUM header build
calls it: a falsy value short-circuits to `""` (quoted empty), a truthy
non-string raises `TypeError` inside `re.match`. -/
def packStr (v : Value) (forceQuote : Bool) : Except PyErr String :=
  if pyFalsy v then .ok "\"\""
  else match v with
  | .str s => .ok (packStrS s forceQuote)
  | _ => .error .typeError

/-- Embedding of `ZonEncoder._pack_value`: `None → null`, bools `T`/`F`, numbers via
`str()` with a trailing `.0` stripped, everything else through
`_pack_str(str(val))`.  Note `str(nan) = "nan"`, `str(inf) = "inf"`: the
special floats are not turned into `null` here. -/
def packValue : Value → String
| .null => "null"
| .bool b => if b then "T" else "F"
| .int n => toString n
| .float f =>
  let s := pyFloatStr f
  if ".0".toList.isSuffixOf s.toList then String.mk (s.toList.dropLast.dropLast) else s
| v => packStrS (pyStr v) false

/-- Embedding of `ZonDecoder._unpack`: alias literals first, then a quoted-string parse,
then `int`, then `float`, else the raw text as a string. -/
def unpackL (l : List Char) : Value :=
  if l = "null".toList then .null
  else if l = "T".toList then .bool true
  else if l = "F".toList then .bool false
  else
    let quoted : Option String :=
      if l.head? = some '"' && l.getLast? = some '"' then jsonLoadsStr l else none
    match quoted with
    | some s => .str s
    | none =>
      match pyParseInt l with
      | some n => .int n
      | none =>
        match pyParseFloat l with
        | some f => .float f
        | none => .str (String.mk l)

/-- Wrapper `unpack` on a `String`. -/
def unpack (s : String) : Value := unpackL s.toList

/-! ### Python arithmetic on values -/

/-- Python `a - b` for the numeric values the encoder subtracts: int-int
stays int (bools count as ints), floats contaminate; non-numeric operands
raise `TypeError` (`none`). -/
def vSub : Value → Value → Option Value
| .int a, .int b => some (.int (a - b))
| .int a, .bool b => some (.int (a - (if b then 1 else 0)))
| .bool a, .int b => some (.int ((if a then 1 else 0) - b))
| .bool a, .bool b => some (.int ((if a then 1 else 0) - (if b then 1 else 0)))
| .float a, v =>
  (numViewB v).map (fun x => .float (PFloat.sub a x))
| v, .float b =>
  (numViewB v).map (fun x => .float (PFloat.sub x b))
| _, _ => none

/-- Python `a + b` on numbers, with the same int/float typing as `vSub`. -/
def vAdd : Value → Value → Option Value
| .int a, .int b => some (.int (a + b))
| .int a, .bool b => some (.int (a + (if b then 1 else 0)))
| .bool a, .int b => some (.int ((if a then 1 else 0) + b))
| .bool a, .bool b => some (.int ((if a then 1 else 0) + (if b then 1 else 0)))
| .float a, v =>
  (numViewB v).map (fun x => .float (PFloat.add a x))
| v, .float b =>
  (numViewB v).map (fun x => .float (PFloat.add x b))
| _, _ => none

/-- Python `a * b` on numbers (used for `i * step` in predictions). -/
def vMul : Value → Value → Option Value
| .int a, .int b => some (.int (a * b))
| .int a, .bool b => some (.int (a * (if b then 1 else 0)))
| .bool a, .int b => some (.int ((if a then 1 else 0) * b))
| .bool a, .bool b => some (.int ((if a then 1 else 0) * (if b then 1 else 0)))
| .float a, v =>
  (numViewB v).map (fun x => .float (PFloat.mul a x))
| v, .float b =>
  (numViewB v).map (fun x => .float (PFloat.mul x b))
| _, _ => none

/-- Python `abs(x) > 1e-9` on a numeric value (`False` for `nan`); the
`1e-9` literal is modelled as the exact rational. -/
def vAbsGtTiny : Value → Bool
| v =>
  match numViewB v with
  | some (.fin q) => Frac.blt ⟨1, 1000000000⟩ q.absF
  | some .inf => true
  | some .ninf => true
  | _ => false

/-- Python `int(x)` on a float value: truncation toward zero; `nan`/`inf`
raise (`none`). -/
def pfTrunc : PFloat → Option ℤ
| .fin q => some q.trunc
| _ => none

/-- Python `int(x)` on a numeric value. -/
def vTrunc : Value → Option ℤ
| .int n => some n
| .bool b => some (if b then 1 else 0)
| .float f => pfTrunc f
| _ => none

/-- Python `round(x)` to an integer: half-to-even; `nan`/`inf` raise. -/
def pfRoundHalfEven : PFloat → Option ℤ
| .fin q => some q.roundHalfEven
| _ => none

/-! ### `str.format` (model restricted to the codec's templates) -/

/-- Pad an integer to `width`, zero-filled (after the sign) or space-filled,
right-aligned — Python's numeric alignment default. -/
def padInt (n : ℤ) (width : ℕ) (zero : Bool) : List Char :=
  let s := (toString n).toList
  if width ≤ s.length then s
  else if zero then
    match s with
    | '-' :: ds => '-' :: (List.replicate (width - s.length) '0' ++ ds)
    | _ => List.replicate (width - s.length) '0' ++ s
  else List.replicate (width - s.length) ' ' ++ s

/-- One format placeholder applied to an integer argument.  Modelled from
the spec: the codec's templates use only `\x7b\x7d` and
`\x7b:0Nd\x7d` (fixed digit width via zero-padding), so this model
supports the empty spec and `:[fill]width d`; any other spec raises
`ValueError` (a conservative stand-in for the full mini-language). -/
def formatSpec (spec : List Char) (n : ℤ) : Except PyErr (List Char) :=
  match spec with
  | [] => .ok (toString n).toList
  | ':' :: s =>
    (match s.reverse with
     | 'd' :: wrev =>
       let w := wrev.reverse
       if w.all Char.isDigit then
         .ok (padInt n (natOfDigits w) (w.head? = some '0'))
       else .error .valueError
     | _ => .error .valueError)
  | _ => .error .valueError

/-- Main loop of `str.format(tpl, n)` with one positional argument, fuelled
by the template length (every step consumes at least one character):
doubled braces are literal, the first placeholder consumes the argument, a
second placeholder raises `IndexError`, a bare closing brace raises
`ValueError`. -/
def pyFormatGo : ℕ → List Char → ℤ → Bool → Except PyErr (List Char)
| _, [], _, _ => .ok []
| 0, _ :: _, _, _ => .error .valueError
| fuel + 1, l, n, used =>
  match l with
  | [] => .ok []
  | '\x7b' :: '\x7b' :: rest =>
    (pyFormatGo fuel rest n used).map (fun t => '\x7b' :: t)
  | '\x7d' :: '\x7d' :: rest =>
    (pyFormatGo fuel rest n used).map (fun t => '\x7d' :: t)
  | '\x7b' :: rest =>
    let spec := rest.takeWhile (fun c => c ≠ '\x7d')
    if spec.length < rest.length then
      if used then .error .indexError
      else do
        let piece ← formatSpec spec n
        let t ← pyFormatGo fuel (rest.drop (spec.length + 1)) n true
        .ok (piece ++ t)
    else .error .valueError
  | '\x7d' :: _ => .error .valueError
  | c :: rest => (pyFormatGo fuel rest n used).map (fun t => c :: t)

/-- Model of `tpl.format(n)` for one integer argument (the fuel is the template
length, which the loop never exhausts). -/
def pyFormat (tpl : String) (n : ℤ) : Except PyErr String :=
  (pyFormatGo tpl.toList.length tpl.toList n false).map String.mk

/-! ### Column rules (`ZonDecoder._parse_rule` and `_calc_val`) -/

/-- A decoded column rule. -/
inductive Rule
| solid
| liquid
| range (start step : PFloat)
| pattern (tpl : String) (start step : ℤ)
| mult (factor : PFloat)
| enum (tbl : List Value)
| value (dflt : Value)
| delta (base : PFloat)

/-- Float parse with Python's `ValueError` on failure. -/
def pyFloatE (l : List Char) : Except PyErr PFloat :=
  match pyParseFloat l with
  | some f => .ok f
  | none => .error .valueError

/-- Int parse with Python's `ValueError` on failure. -/
def pyIntE (l : List Char) : Except PyErr ℤ :=
  match pyParseInt l with
  | some n => .ok n
  | none => .error .valueError

/-- Embedding of `ZonDecoder._parse_rule` (decoder.py:84-111): keyword dispatch in source
order, slicing off `K(`…`)`; unknown text is SOLID. -/
def parseRule (l : List Char) : Except PyErr Rule :=
  if RANGE_KEYWORD.toList.isPrefixOf l then do
    let p := splitOnChar ',' (pySlice l 2 (-1))
    let a ← match p.get? 0 with | some x => pyFloatE x | none => .error .indexError
    let b ← match p.get? 1 with | some x => pyFloatE x | none => .error .indexError
    .ok (.range a b)
  else if PATTERN_KEYWORD.toList.isPrefixOf l then do
    let args := pySlice l 2 (-1)
    let lc := pyRfind ',' args
    let slc := pyRfindIn ',' args lc
    let tpl := String.mk (pySlice args 0 slc)
    let s ← pyIntE (pySlice args (slc + 1) lc)
    let st ← pyIntE (pySlice args (lc + 1) args.length)
    .ok (.pattern tpl s st)
  else if MULT_KEYWORD.toList.isPrefixOf l then do
    let f ← pyFloatE (pySlice l 2 (-1))
    .ok (.mult f)
  else if ENUM_KEYWORD.toList.isPrefixOf l then do
    let vals ← csvFirstRow (pySlice l 2 (-1))
    .ok (.enum (vals.map unpack))
  else if VALUE_KEYWORD.toList.isPrefixOf l then
    .ok (.value (unpack (String.mk (pySlice l 2 (-1)))))
  else if DELTA_KEYWORD.toList.isPrefixOf l then do
    let b ← pyFloatE (pySlice l 2 (-1))
    .ok (.delta b)
  else if l = LIQUID_KEYWORD.toList then .ok .liquid
  else .ok .solid

/-- Embedding of `ZonDecoder._calc_val` (decoder.py:113-118): the value synthesised for a
predicted cell from the rule, the row index and the previous value.  RANGE
and PATTERN use `start + idx * step`; LIQUID the previous value; VALUE the
declared default; everything else (SOLID, MULT, ENUM, DELTA) falls through
to `prev`. -/
def calcVal : Rule → ℕ → Value → Except PyErr Value
| .range s st, idx, _ =>
  .ok (.float (PFloat.add s (PFloat.mul (.fin (Frac.ofNat idx)) st)))
| .pattern tpl s st, idx, _ => (pyFormat tpl (s + (idx : ℤ) * st)).map .str
| .liquid, _, prev => .ok prev
| .value d, _, _ => .ok d
| .solid, _, prev => .ok prev
| .mult _, _, prev => .ok prev
| .enum _, _, prev => .ok prev
| .delta _, _, prev => .ok prev

/-! ### Unflattening (`ZonDecoder._unflatten`) -/

/-- First binding of a key in an insertion-ordered dict. -/
def assocGetStr (m : List (String × Value)) (k : String) : Option Value :=
  (m.find? (fun p => p.1 = k)).map (fun p => p.2)

/-- Dict assignment `m[k] = v`: update the existing binding in place, else
append. -/
def assocSetStr : List (String × Value) → String → Value → List (String × Value)
| [], k, v => [(k, v)]
| (k', v') :: rest, k, v =>
  if k' = k then (k', v) :: rest else (k', v') :: assocSetStr rest k v

/-- The intermediate walk of `_unflatten` (decoder.py:153-163), including
its quirk: when an intermediate segment is bound to a non-dict, the
`continue` skips only that segment — the cursor `t` stays where it is and
the remaining segments (and the leaf) are created from there. -/
def insertGo : List (String × Value) → List String → String → Value →
    List (String × Value)
| m, [], last, leaf => assocSetStr m last leaf
| m, x :: rest, last, leaf =>
  match assocGetStr m x with
  | none => assocSetStr m x (.map (insertGo [] rest last leaf))
  | some (.map sub) => assocSetStr m x (.map (insertGo sub rest last leaf))
  | some _ => insertGo m rest last leaf

/-- Embedding of `ZonDecoder._unflatten`: split each key on `.`, walk/create intermediate
dicts, set the terminal leaf. -/
def unflatten (row : List (String × Value)) : Value :=
  .map (row.foldl (fun acc kv =>
    let p := (splitOnChar '.' kv.1.toList).map String.mk
    insertGo acc p.dropLast (p.getLastD "") kv.2) [])

/-! ### The decoder (`ZonDecoder.decode`, decoder.py:10-82) -/

/-- First binding of a key in the headers dict. -/
def assocGetRule (m : List (String × Rule)) (k : String) : Option Rule :=
  (m.find? (fun p => p.1 = k)).map (fun p => p.2)

/-- Dict assignment for the headers dict. -/
def assocSetRule : List (String × Rule) → String → Rule → List (String × Rule)
| [], k, v => [(k, v)]
| (k', v') :: rest, k, v =>
  if k' = k then (k', v) :: rest else (k', v') :: assocSetRule rest k v

/-- Lookahead `[^(]*\)` of the schema-splitting regex
`,(?![^(]*\))` (decoder.py:25): from this position, a run of
non-`(` characters reaches a `)`. -/
def lookNPC : List Char → Bool
| [] => false
| ')' :: _ => true
| '(' :: _ => false
| _ :: t => lookNPC t

/-- Model of `re.split` on `,(?![^(]*\))`: a comma splits exactly when the negative
lookahead holds (no `)` ahead of any `(`); other commas stay in the field. -/
def schemaSplit : List Char → List (List Char)
| [] => [[]]
| ',' :: rest =>
  if lookNPC rest then
    match schemaSplit rest with
    | h :: t => (',' :: h) :: t
    | [] => [[',']]
  else [] :: schemaSplit rest
| c :: rest =>
  match schemaSplit rest with
  | h :: t => (c :: h) :: t
  | [] => [[c]]

/-- Parsed header state: dictionary, per-column rules, column order. -/
structure HeaderInfo where
  dictMap : List String
  headers : List (String × Rule)
  keysOrder : List String

/-- One schema column entry `name:rule` (entries without `:` are skipped). -/
def addSchemaCol (acc : HeaderInfo) (c : List Char) : Except PyErr HeaderInfo :=
  if c.contains ':' then do
    let kv := splitFirst ':' c
    let k := String.mk kv.1
    let rule ← parseRule kv.2
    .ok ⟨acc.dictMap, assocSetRule acc.headers k rule, acc.keysOrder ++ [k]⟩
  else .ok acc

/-- Header-part loop (decoder.py:20-30): a `#…` part replaces the
dictionary, a part containing `SCHEMA_START` contributes schema columns,
anything else is ignored. -/
def processParts : List (List Char) → HeaderInfo → Except PyErr HeaderInfo
| [], acc => .ok acc
| p :: rest, acc =>
  if DICT_MARKER.toList.isPrefixOf p then do
    let d ← csvFirstRow (p.drop DICT_MARKER.length)
    processParts rest ⟨d, acc.headers, acc.keysOrder⟩
  else if p.contains '\x7b' then do
    let inner := pySlice p (pyFind '\x7b' p + 1) (pyRfind '\x7d' p)
    let acc' ← (schemaSplit inner).foldlM addSchemaCol acc
    processParts rest acc'
  else processParts rest acc

/-- Strip of the anchor marker `re.sub(r'^\$\d+:', '', line)`. -/
def stripAnchor (l : List Char) : List Char :=
  match l with
  | '$' :: rest =>
    let ds := rest.takeWhile Char.isDigit
    if !ds.isEmpty && (rest.drop ds.length).head? = some ':' then
      rest.drop (ds.length + 1)
    else l
  | _ => l

/-- Per-cell reconstruction (decoder.py:59-78): empty cell in a non-anchor
row synthesises via `_calc_val`; a `%i` token resolves through the document
dictionary (raising `IndexError` out of range); otherwise the literal is
unpacked and the rule-specific post-processing applied — MULT divides,
ENUM indexes the declared table when the value is an in-range int (Python's
`isinstance(val, int)` includes bool), DELTA adds to the previous value
(or to the base when it is `None`) for rows past the first. -/
def decodeCell (rule : Rule) (tok : String) (dictMap : List String)
    (curr : ℕ) (prev : Value) (isAnchor : Bool) : Except PyErr Value :=
  if tok = "" && !isAnchor then calcVal rule curr prev
  else if DICT_REF_PREFIX'.toList.isPrefixOf tok.toList && isdigitL (tok.toList.drop 1) then
    match dictMap.get? (natOfDigits (tok.toList.drop 1)) with
    | some s => .ok (unpack s)
    | none => .error .indexError
  else
    let val := unpack tok
    match rule with
    | .mult factor =>
      (match numViewB val with
       | some x => (PFloat.div x factor).map .float
       | none => .ok val)
    | .enum tbl =>
      (match (match val with
              | .int n => some n
              | .bool b => some (if b then (1 : ℤ) else 0)
              | _ => none) with
       | some n =>
         if 0 ≤ n ∧ n < (tbl.length : ℤ) then .ok ((tbl.get? n.toNat).getD val)
         else .ok val
       | none => .ok val)
    | .delta base =>
      (match numViewB val with
       | some x =>
         if 0 < curr then
           match prev with
           | .null => .ok (.float (PFloat.add base x))
           | p =>
             (match vAdd p val with
              | some r => .ok r
              | none => .error .typeError)
         else .ok val
       | none => .ok val)
    | _ => .ok val

/-- One data row (decoder.py:56-80): fold the columns in schema order with
their token index, threading the row dict and `prev_vals`. -/
def decodeRowA (keysOrder : List String) (headers : List (String × Rule))
    (dictMap : List String) (tokens : List String) (curr : ℕ)
    (prev : List (String × Value)) (isAnchor : Bool) :
    Except PyErr (List (String × Value) × List (String × Value)) := do
  let st ← keysOrder.foldlM
    (fun (st : List (String × Value) × List (String × Value) × ℕ) k => do
      let (row, prevAcc, idx) := st
      let tok := (tokens.get? idx).getD ""
      let rule := (assocGetRule headers k).getD .solid
      let val ← decodeCell rule tok dictMap curr
        ((assocGetStr prevAcc k).getD .null) isAnchor
      .ok (assocSetStr row k val, assocSetStr prevAcc k val, idx + 1))
    ([], prev, 0)
  .ok (st.1, st.2.1)

/-- One synthesised (run-length) row: every column through `_calc_val`. -/
def rleRow (keysOrder : List String) (headers : List (String × Rule))
    (curr : ℕ) (prev : List (String × Value)) :
    Except PyErr (List (String × Value) × List (String × Value)) := do
  let st ← keysOrder.foldlM (fun (st : List (String × Value) × List (String × Value)) k => do
      let rule := (assocGetRule headers k).getD .solid
      let val ← calcVal rule curr ((assocGetStr st.2 k).getD .null)
      .ok (assocSetStr st.1 k val, assocSetStr st.2 k val))
    ([], prev)
  .ok st

/-- Emission of `count` synthesised rows appended to the output. -/
def rleRepeat (keysOrder : List String) (headers : List (String × Rule)) :
    ℕ → List Value → List (String × Value) →
    Except PyErr (List Value × List (String × Value))
| 0, decoded, prev => .ok (decoded, prev)
| n + 1, decoded, prev => do
  let st ← rleRow keysOrder headers decoded.length prev
  rleRepeat keysOrder headers n (decoded ++ [unflatten st.1]) st.2

/-- The row loop of `ZonDecoder.decode` (decoder.py:35-81). -/
def rowsLoop (keysOrder : List String) (headers : List (String × Rule))
    (dictMap : List String) :
    List (List Char) → List Value → List (String × Value) →
    Except PyErr (List Value)
| [], decoded, _ => .ok decoded
| line :: rest, decoded, prev =>
  let line := pyStripL line
  if line.isEmpty then rowsLoop keysOrder headers dictMap rest decoded prev
  else if REPEAT_SUFFIX.toList.isSuffixOf line && isdigitL line.dropLast then do
    let st ← rleRepeat keysOrder headers (natOfDigits line.dropLast) decoded prev
    rowsLoop keysOrder headers dictMap rest st.1 st.2
  else do
    let clean := stripAnchor line
    let isAnchor := ANCHOR_PREFIX'.toList.isPrefixOf line
    let tokens := if clean.isEmpty then [] else csvParseLine clean
    let tokens := tokens ++ List.replicate (keysOrder.length - tokens.length) ""
    let st ← decodeRowA keysOrder headers dictMap tokens decoded.length prev isAnchor
    rowsLoop keysOrder headers dictMap rest (decoded ++ [unflatten st.1]) st.2

/-- Inline-mode decode (`ZonDecoder._decode_inline`, decoder.py:139-148). -/
def decodeInlineL (lines : List (List Char)) : List Value :=
  lines.map (fun l =>
    let row := (splitOnChar ',' l).foldl (fun row p =>
      if p.contains ':' then
        let kv := splitFirst ':' p
        assocSetStr row (String.mk kv.1) (unpackL kv.2)
      else row) []
    unflatten row)

/-- Embedding of `ZonDecoder.decode` / the module-level `decode` (decoder.py:10-82,
166-167): note it takes no `strict` parameter, reads no declared row
count, and performs no size, key or nesting checks. -/
def decode (zonStr : String) : Except PyErr (List Value) :=
  if zonStr = "" then .ok [] else
  match splitOnChar '\n' (pyStripL zonStr.toList) with
  | [] => .ok []
  | l0 :: rest =>
    if !( HEADER_PREFIX'.toList.isPrefixOf l0) then
      .ok (decodeInlineL (l0 :: rest))
    else do
      let info ← processParts (splitOnChar ',' l0) ⟨[], [], []⟩
      let prev0 := info.keysOrder.map (fun k => (k, Value.null))
      rowsLoop info.keysOrder info.headers info.dictMap rest [] prev0

/-! ### Flattening (`ZonEncoder._flatten`) -/

mutual

/-- Embedding of `ZonEncoder._flatten` (encoder.py:291-299): depth-first, dotted keys;
non-empty dicts are recursed into, everything else (lists and empty dicts
included) is a leaf.  There is no visiting-set in the source: on a value
type this total recursion is faithful, while a cyclic Python input would
recurse without bound. -/
def flattenV : List (String × Value) → String → List (String × Value)
| [], _ => []
| (k, v) :: rest, parent =>
  let newKey := if parent = "" then k else parent ++ "." ++ k
  flattenLeaf v newKey ++ flattenV rest parent

/-- One entry of `_flatten`: recurse into a non-empty dict, else a leaf. -/
def flattenLeaf : Value → String → List (String × Value)
| .map (x :: xs), newKey => flattenV (x :: xs) newKey
| v, newKey => [(newKey, v)]

end

/-- Python `dict(items)`: last binding wins, first position kept. -/
def dictOfList (items : List (String × Value)) : List (String × Value) :=
  items.foldl (fun acc kv => assocSetStr acc kv.1 kv.2) []

/-- One encoder row: a non-dict element raises (`row.items()` /
`_flatten(row)` on a non-dict is an `AttributeError`, folded into
`TypeError` here). -/
def toFlatRow : Value → Except PyErr (List (String × Value))
| .map m => .ok (dictOfList (flattenV m ""))
| _ => .error .typeError

/-! ### Global dictionary (`ZonEncoder._build_global_dict`) -/

/-- Counter update over strings (insertion-ordered, first occurrence). -/
def counterAddStr (acc : List (String × ℕ)) (s : String) : List (String × ℕ) :=
  if acc.any (fun p => p.1 = s) then
    acc.map (fun p => if p.1 = s then (p.1, p.2 + 1) else p)
  else acc ++ [(s, 1)]

/-- Stable descending insertion by frequency (Python's stable `sort` with
`reverse=True`). -/
def insertDesc (x : String × ℕ) : List (String × ℕ) → List (String × ℕ)
| [] => [x]
| y :: rest => if y.2 < x.2 then x :: y :: rest else y :: insertDesc x rest

/-- Embedding of `ZonEncoder._build_global_dict` (encoder.py:135-147): count string
values, keep strings of length ≥ 3 whose saving `f·(L−2)` beats the entry
cost `L+5`, sort by frequency descending (stable), keep 64; also the
inverse index map. -/
def buildGlobalDict (flat : List (List (String × Value))) :
    List String × List (String × ℕ) :=
  let c := flat.foldl (fun acc r => r.foldl (fun acc kv =>
    match kv.2 with
    | .str s => counterAddStr acc s
    | _ => acc) acc) []
  let candidates := c.filter (fun p =>
    3 ≤ p.1.length && p.1.length + 5 < p.2 * (p.1.length - 2))
  let sorted := candidates.foldl (fun acc x => insertDesc x acc) []
  let zmap := (sorted.map Prod.fst).take 64
  (zmap, zmap.enum.map (fun p => (p.2, p.1)))

/-! ### Column analysis (`ZonEncoder._analyze_columns`) -/

/-- The chosen strategy for one column, with the data the encoder stores
alongside it (`param`, `enum_map`, `default`). -/
inductive ColState
| solid
| gasInt (step : Value)
| gasPat (tpl : String) (start step : ℤ)
| gasMult (factor : PFloat)
| liquid
| enumSt (tbl : List Value)
| valueSt (dflt : Value)
| deltaSt (base : Value)

/-- Adjacent differences `vals[i] - vals[i-1]` (callers guarantee numeric
operands; the `.null` default is unreachable under their guards). -/
def adjDiffs : List Value → List Value
| a :: b :: rest => ((vSub b a).getD .null) :: adjDiffs (b :: rest)
| _ => []

/-- Deduplication by Python `==` in first-occurrence order.  This is the
reference enumeration used for `list(set(...))`; Python's actual iteration
order for a string set depends on the interpreter's randomised hash, which
is why the analyser below is parameterised over it. -/
def dedupPyEq (l : List Value) : List Value :=
  l.foldl (fun acc v => if acc.any (fun w => pyEq w v) then acc else acc ++ [v]) []

/-- String deduplication (used where Python builds a `set` of `json.dumps`
strings and only its size matters). -/
def dedupStrList (l : List String) : List String :=
  l.foldl (fun acc s => if acc.contains s then acc else acc ++ [s]) []

/-- Count of adjacent repeats `vals[i] == vals[i-1]`. -/
def countAdjRepeats : List Value → ℕ
| a :: b :: rest => (if pyEq b a then 1 else 0) + countAdjRepeats (b :: rest)
| _ => 0

/-- Counter update over values by Python `==` (a fresh `nan` occurrence
never matches, so each counts separately, as in Python for distinct
objects). -/
def counterAddVal (acc : List (Value × ℕ)) (v : Value) : List (Value × ℕ) :=
  if acc.any (fun p => pyEq p.1 v) then
    acc.map (fun p => if pyEq p.1 v then (p.1, p.2 + 1) else p)
  else acc ++ [(v, 1)]

/-- Model of `Counter.most_common(1)[0]`: the maximal count, first-inserted among
ties (Python's stable sort). -/
def mostCommon : List (Value × ℕ) → (Value × ℕ)
| [] => (.null, 0)
| x :: rest => rest.foldl (fun best y => if best.2 < y.2 then y else best) x

/-- First index of a value in the enum table by Python `==`
(`enum_inv[val]`). -/
def idxOfPyEq (tbl : List Value) (v : Value) : Option ℕ :=
  (tbl.enum.find? (fun p => pyEq p.2 v)).map (fun p => p.1)

/-- First maximal digit run of a string: `(before, digits, after)` —
`re.search(r'(\d+)', s)`. -/
def findDigitRun : List Char → Option (List Char × List Char × List Char)
| [] => none
| c :: rest =>
  if c.isDigit then
    let ds := (c :: rest).takeWhile Char.isDigit
    some ([], ds, (c :: rest).drop ds.length)
  else (findDigitRun rest).map (fun r => (c :: r.1, r.2.1, r.2.2))

/-- The `vals[:5]` check of `_detect_pattern`: each value must be the
formatted string (a non-string or a formatting error fails, matching the
`!=` and the enclosing `except`). -/
def checkPat (tpl : String) (start step : ℤ) : ℕ → List Value → Bool
| _, [] => true
| i, v :: rest =>
  (match pyFormat tpl (start + (i : ℤ) * step) with
   | .ok s => (match v with | .str sv => sv = s | _ => false)
   | .error _ => false) && checkPat tpl start step (i + 1) rest

/-- Embedding of `ZonEncoder._detect_pattern` (encoder.py:256-269): falsy first or
second value bails; the first digit run of `vals[0]` gives prefix, start
and width; the digit run of `vals[1]` gives the step (a non-string or
digit-free `vals[1]` raises inside the `try` and yields `None`); the
zero-padded template must reproduce the first five values. -/
def detectPattern (vals : List Value) : Option (String × ℤ × ℤ) :=
  match vals with
  | v0 :: v1 :: _ =>
    if pyFalsy v0 || pyFalsy v1 then none
    else
      match v0, v1 with
      | .str s0, .str s1 =>
        (match findDigitRun s0.toList, findDigitRun s1.toList with
         | some (p, ds, suf), some (_, ds1, _) =>
           let start : ℤ := natOfDigits ds
           let step := (natOfDigits ds1 : ℤ) - start
           let tpl := String.mk p ++ "\x7b:0" ++ toString ds.length ++ "d\x7d"
             ++ String.mk suf
           if checkPat tpl start step 0 (vals.take 5) then
             some (tpl, start, step)
           else none
         | _, _ => none)
      | _, _ => none
  | _ => none

/-- Candidate-cost comparison `cost < best_cost` with `best_cost` starting
at `float('inf')` (`none`). -/
def betterCost (best : Option Frac) (c : Frac) : Bool :=
  match best with
  | none => true
  | some b => c.blt b

/-- Whether a value is `None`. -/
def isNullV : Value → Bool
| .null => true
| _ => false

/-- Python's hashable filter `v is not None and not isinstance(v, (list,
dict))`. -/
def isHashable : Value → Bool
| .null => false
| .list _ => false
| .map _ => false
| _ => true

/-- Embedding of `ZonEncoder._analyze_columns` for one column (encoder.py:149-254): the
entropy tournament over the eight strategies, in source order, each gated
on its applicability and on beating the best cost so far.  `setEnum`
models `list(set(...))` of the hashable values (encoder.py:193), whose
order Python leaves to the salted string hash. -/
def analyzeColumn (setEnum : List Value → List Value) (vals : List Value) :
    ColState :=
  let nums := vals.filter (fun v => (numViewNB v).isSome)
  let best0 : ColState × Option Frac := (.solid, none)
  -- Strategy 1: GAS_INT
  let best1 :=
    if nums.length = vals.length ∧ 1 < vals.length then
      let diffs := dedupPyEq (adjDiffs vals)
      if diffs.length = 1 ∧ vAbsGtTiny (diffs.headD .null) then
        (ColState.gasInt (diffs.headD .null), some (Frac.ofInt 0))
      else best0
    else best0
  -- Strategy 2: GAS_PAT
  let best2 :=
    if 1 < vals.length ∧ (match vals.head? with
                          | some (.str _) => true
                          | _ => false) = true then
      match detectPattern vals with
      | some (tpl, s, st) =>
        if betterCost best1.2 (Frac.ofInt 0) then
          (ColState.gasPat tpl s st, some (Frac.ofInt 0))
        else best1
      | none => best1
    else best1
  -- Strategy 3: GAS_MULT
  let best3 :=
    if nums.length = vals.length ∧ 0 < vals.length ∧
       nums.all (fun v => match v with
                 | .float f => (PFloat.mul f (.fin (Frac.ofInt 100))).isInteger
                 | _ => false) then
      if betterCost best2.2 (Frac.ofInt 2) then
        (ColState.gasMult (.fin (Frac.ofInt 100)), some (Frac.ofInt 2))
      else best2
    else best2
  -- Strategy 4: ENUM
  let hashable := vals.filter isHashable
  let best4 :=
    (let uniq := setEnum hashable
     if uniq.length < 16 ∧ 1 < uniq.length then
       let headerCost := Frac.ofNat (uniq.map (fun v => (pyStr v).length)).sum
       let streamCost := (Frac.ofNat vals.length).mul ⟨3, 2⟩
       let total := headerCost.add streamCost
       let explicit := Frac.ofNat (vals.map (fun v => (pyStr v).length)).sum
       if total.blt explicit ∧ betterCost best3.2 total = true then
         (ColState.enumSt uniq, some total)
       else best3
     else best3)
  -- Strategy 5: VALUE
  let best5 :=
    if 0 < vals.length then
      let counts := hashable.foldl counterAddVal []
      if counts.isEmpty then best4
      else
        let mc := mostCommon counts
        if Frac.blt ⟨3, 5⟩ ⟨(mc.2 : ℤ), (vals.length : ℤ)⟩ then
          let cost := Frac.ofNat ((vals.length - mc.2) * (pyStr mc.1).length)
          if betterCost best4.2 cost then (ColState.valueSt mc.1, some cost) else best4
        else best4
    else best4
  -- Strategy 6: DELTA
  let best6 :=
    if nums.length = vals.length ∧ 1 < vals.length then
      let diffs := adjDiffs vals
      match diffs.mapM (fun d => (vTrunc d).map (fun n => (toString n).length)),
            vals.mapM (fun v => (vTrunc v).map (fun n => (toString n).length)) with
      | some dl, some vl =>
        let avgd : Frac := ⟨(dl.sum : ℤ), (dl.length : ℤ)⟩
        let avgv : Frac := ⟨(vl.sum : ℤ), (vl.length : ℤ)⟩
        if avgd.blt (avgv.sub (Frac.ofInt 1)) then
          let cost := avgd.mul (Frac.ofNat vals.length)
          if betterCost best5.2 cost then
            (ColState.deltaSt (vals.headD .null), some cost)
          else best5
        else best5
      | _, _ => best5
    else best5
  -- Strategy 7: LIQUID
  let best7 :=
    if 0 < vals.length then
      let u := (dedupStrList (vals.map jsonDumps)).length
      if Frac.blt ⟨(u : ℤ), (vals.length : ℤ)⟩ ⟨1, 2⟩ then
        let repeats := countAdjRepeats vals
        let cost := Frac.ofNat ((vals.length - repeats) * 5)
        if betterCost best6.2 cost then (ColState.liquid, some cost) else best6
      else best6
    else best6
  best7.1

/-! ### Encoder driver (`ZonEncoder.encode`) -/

/-- Lexicographic code-point comparison (Python `str` ordering). -/
def chLt : List Char → List Char → Bool
| [], [] => false
| [], _ :: _ => true
| _ :: _, [] => false
| a :: as', b :: bs =>
  if a.val < b.val then true else if b.val < a.val then false else chLt as' bs

/-- Python `a < b` on strings. -/
def strLtB (a b : String) : Bool := chLt a.toList b.toList

/-- Ascending insertion (stable). -/
def insertAsc (x : String) : List String → List String
| [] => [x]
| y :: rest => if strLtB x y then x :: y :: rest else y :: insertAsc x rest

/-- Python `sorted` on strings. -/
def sortStrings (l : List String) : List String :=
  l.foldl (fun acc x => insertAsc x acc) []

/-- First-occurrence deduplication of strings (models the key-set union;
the subsequent sort makes the order canonical either way). -/
def dedupStr (l : List String) : List String :=
  l.foldl (fun acc x => if acc.contains x then acc else acc ++ [x]) []

/-- Rule serialisation for the schema header (encoder.py:27-51). -/
def ruleStr (vals : List Value) : ColState → Except PyErr String
| .solid => .ok SOLID_KEYWORD
| .gasInt step =>
  .ok ( RANGE_KEYWORD ++ "(" ++ pyStr (vals.headD .null) ++ "," ++ pyStr step ++ ")")
| .gasPat tpl s st =>
  .ok ( PATTERN_KEYWORD ++ "(" ++ tpl ++ "," ++ toString s ++ "," ++ toString st ++ ")")
| .gasMult f => .ok ( MULT_KEYWORD ++ "(" ++ pyFloatStr f ++ ")")
| .liquid => .ok LIQUID_KEYWORD
| .enumSt tbl => do
  let parts ← tbl.mapM (fun v => packStr v false)
  .ok ( ENUM_KEYWORD ++ "(" ++ String.intercalate "," parts ++ ")")
| .valueSt d => .ok ( VALUE_KEYWORD ++ "(" ++ packValue d ++ ")")
| .deltaSt b => .ok ( DELTA_KEYWORD ++ "(" ++ pyStr b ++ ")")

/-- Inline emission (`ZonEncoder._encode_inline`; dead code under
`INLINE_THRESHOLD_ROWS = 0`, kept for fidelity). -/
def encodeInline (flat : List (List (String × Value))) : String :=
  String.intercalate "\n" (flat.map (fun row =>
    String.intercalate SEPARATOR (row.map (fun kv => kv.1 ++ ":" ++ packValue kv.2))))

/-- Column lookup in the analysis table. -/
def assocGetCol (m : List (String × ColState × List Value)) (k : String) :
    ColState × List Value :=
  ((m.find? (fun p => p.1 = k)).map (fun p => p.2)).getD (.solid, [])

/-- The predicted value `vals[0] + i * param` of a GAS_INT column. -/
def predGasInt (v0 step : Value) (i : ℕ) : Value :=
  ((vMul (.int (i : ℤ)) step).bind (fun t => vAdd v0 t)).getD .null

/-- Row predictability (encoder.py:66-87): every column's rule must entail
the value; non-predictive strategies make the row unpredictable. -/
def predictableRow (keys : List String)
    (colDefs : List (String × ColState × List Value))
    (prev row : List (String × Value)) (i : ℕ) : Bool :=
  keys.all (fun k =>
    let val := (assocGetStr row k).getD .null
    let cv := assocGetCol colDefs k
    match cv.1 with
    | .gasInt step => pyEq val (predGasInt (cv.2.headD .null) step i)
    | .gasPat tpl s st =>
      (match pyFormat tpl (s + (i : ℤ) * st) with
       | .ok f => pyEq val (.str f)
       | .error _ => false)
    | .liquid => pyEq val ((assocGetStr prev k).getD .null)
    | .valueSt d => pyEq val d
    | _ => false)

/-- Cell encoding (encoder.py:102-115): the `elif` chain GAS_MULT → ENUM →
DELTA → dictionary reference → `_pack_value`, with the `try`/`except`
fallbacks to `_pack_value`. -/
def encCell (zinv : List (String × ℕ)) (state : ColState) (i : ℕ)
    (prevVal val : Value) : String :=
  let tryMult : Option String :=
    match state with
    | .gasMult f =>
      if isNullV val then none
      else some
        (match numViewB val with
         | some x =>
           (match pfRoundHalfEven (PFloat.mul x f) with
            | some n => toString n
            | none => packValue val)
         | none => packValue val)
    | _ => none
  let tryEnum : Option String :=
    match state with
    | .enumSt tbl => (idxOfPyEq tbl val).map toString
    | _ => none
  let tryDelta : Option String :=
    match state with
    | .deltaSt _ =>
      if 0 < i ∧ !isNullV val ∧ !isNullV prevVal then some
        (match vSub val prevVal with
         | some d =>
           (match vTrunc d with
            | some n => toString n
            | none => packValue val)
         | none => packValue val)
      else none
    | _ => none
  let tryDict : Option String :=
    match val with
    | .str s => ((zinv.find? (fun p => p.1 = s)).map (fun p =>
        DICT_REF_PREFIX' ++ toString p.2))
    | _ => none
  match tryMult with
  | some e => e
  | none =>
    match tryEnum with
    | some e => e
    | none =>
      match tryDelta with
      | some e => e
      | none =>
        match tryDict with
        | some e => e
        | none => packValue val

/-- The write decision (encoder.py:117-127): anchors always write the
encoding; otherwise a cell entailed by a GAS_INT / LIQUID / VALUE rule is
elided. -/
def cellMatches (state : ColState) (vals : List Value) (i : ℕ)
    (prevVal val : Value) : Bool :=
  match state with
  | .gasInt step => pyEq val (predGasInt (vals.headD .null) step i)
  | .liquid => pyEq val prevVal
  | .valueSt d => pyEq val d
  | _ => false

/-- Emit one row: the cell list and the updated `prev_row_vals`. -/
def emitRow (keys : List String)
    (colDefs : List (String × ColState × List Value)) (zinv : List (String × ℕ))
    (i : ℕ) (prev row : List (String × Value)) (isAnchor : Bool) :
    List String × List (String × Value) :=
  keys.foldl (fun st k =>
    let val := (assocGetStr row k).getD .null
    let cv := assocGetCol colDefs k
    let prevVal := (assocGetStr st.2 k).getD .null
    let enc := encCell zinv cv.1 i prevVal val
    let cell :=
      if isAnchor then enc
      else if cellMatches cv.1 cv.2 i prevVal val then "" else enc
    (st.1 ++ [cell], assocSetStr st.2 k val)) ([], prev)

/-- The row stream with run-length folding and anchors (encoder.py:58-133).
Note the source updates `prev_row_vals` only on emitted rows. -/
def streamGo (keys : List String)
    (colDefs : List (String × ColState × List Value)) (zinv : List (String × ℕ))
    (K : ℕ) :
    List (List (String × Value)) → ℕ → List (String × Value) → ℕ →
    List String → List String
| [], _, _, rle, out =>
  if 0 < rle then out ++ [toString rle ++ REPEAT_SUFFIX] else out
| row :: rest, i, prev, rle, out =>
  let isAnchor := ((i + 1) % K = 0) ∨ i = 0
  if ¬isAnchor ∧ predictableRow keys colDefs prev row i then
    streamGo keys colDefs zinv K rest (i + 1) prev (rle + 1) out
  else
    let out := if 0 < rle then out ++ [toString rle ++ REPEAT_SUFFIX] else out
    let er := emitRow keys colDefs zinv i prev row isAnchor
    let lineStr :=
      (if isAnchor then ANCHOR_PREFIX' ++ toString (i + 1) ++ ":" else "")
        ++ String.intercalate "," er.1
    streamGo keys colDefs zinv K rest (i + 1) er.2 0 (out ++ [lineStr])

/-- Embedding of `ZonEncoder.encode` (encoder.py:12-133), parameterised by the
`list(set(...))` enumeration the ENUM strategy uses. -/
def encodeWith (setEnum : List Value → List Value) (anchorInterval : ℕ)
    (data : List Value) : Except PyErr String :=
  match data with
  | [] => .ok "[]"
  | _ => do
    let flat ← data.mapM toFlatRow
    if flat.length ≤ INLINE_THRESHOLD_ROWS then .ok (encodeInline flat)
    else do
      let keys := sortStrings (dedupStr (flat.foldl (fun acc r =>
        acc ++ r.map Prod.fst) []))
      let zres := buildGlobalDict flat
      let colDefs := keys.map (fun k =>
        let vals := flat.map (fun d => (assocGetStr d k).getD .null)
        (k, analyzeColumn setEnum vals, vals))
      let schemaParts ← colDefs.mapM (fun kcv =>
        (ruleStr kcv.2.2 kcv.2.1).map (fun r => kcv.1 ++ ":" ++ r))
      let schemaDef := "rows[" ++ toString flat.length ++ "]" ++ SCHEMA_START
        ++ String.intercalate "," schemaParts ++ SCHEMA_END
      let dictStr :=
        if zres.1.isEmpty then ""
        else DICT_MARKER ++ String.intercalate ","
          (zres.1.map (fun s => packStrS s false)) ++ SEPARATOR
      let header := HEADER_PREFIX' ++ VERSION ++ SEPARATOR ++ dictStr
        ++ schemaDef ++ SEPARATOR ++ ANCHOR_MARKER ++ toString anchorInterval
      let body := streamGo keys colDefs zres.2 anchorInterval flat 0
        (keys.map (fun k => (k, Value.null))) 0 []
      .ok (String.intercalate "\n" (header :: body))

/-- The reference enumeration for `list(set(...))`: first-occurrence order.
Any permutation is an equally valid model of Python's salted-hash set
iteration; `encode` fixes this one. -/
def defaultSetEnum (l : List Value) : List Value := dedupPyEq l

/-- The module-level `encode` (encoder.py:301-302) with the default anchor
interval. -/
def encode (data : List Value) : Except PyErr String :=
  encodeWith defaultSetEnum DEFAULT_ANCHOR_INTERVAL data

/-! ## Helper lemmas -/

/-- Lemma: `dropWhile` is the identity when no element satisfies the predicate. -/
theorem dropWhile_eq_self_mem (p : Char → Bool) (l : List Char)
    (h : ∀ c ∈ l, p c = false) : l.dropWhile p = l := by
  cases l with
  | nil => rfl
  | cons a t => simp [List.dropWhile_cons, h a (List.mem_cons_self a t)]

/-- Lemma: `strip()` is the identity on whitespace-free text. -/
theorem pyStripL_eq_self (l : List Char) (h : ∀ c ∈ l, pyIsSpace c = false) :
    pyStripL l = l := by
  unfold pyStripL
  rw [dropWhile_eq_self_mem _ _ h,
    dropWhile_eq_self_mem _ _ (fun c hc => h c (List.mem_reverse.mp hc)),
    List.reverse_reverse]

/-- Lemma: `split(sep)` yields one piece when the separator does not occur. -/
theorem splitOnChar_eq_single (c : Char) (l : List Char)
    (h : ∀ x ∈ l, x ≠ c) : splitOnChar c l = [l] := by
  induction l with
  | nil => rfl
  | cons a t ih =>
    have ht := ih (fun x hx => h x (List.mem_cons_of_mem _ hx))
    have ha : a ≠ c := h a (List.mem_cons_self a t)
    simp [splitOnChar, ht, ha]

/-- A replicate of `'a'` is never a list containing a different character. -/
theorem replicate_a_ne {n : ℕ} {s : List Char} (d : Char) (hd : d ∈ s)
    (hda : d ≠ 'a') : List.replicate n 'a' ≠ s := by
  intro h
  exact hda (List.eq_of_mem_replicate (h ▸ hd))

/-- No digit group is a run of `'a'`s. -/
theorem digitsU_replicate_a (n : ℕ) : digitsU (List.replicate n 'a') = false := by
  cases n with
  | zero => rfl
  | succ m => simp [List.replicate_succ, digitsU]

/-- A run of `'a'`s contains no other character. -/
theorem contains_replicate_a (n : ℕ) (c : Char) (h : c ≠ 'a') :
    (List.replicate n 'a').contains c = false := by
  induction n with
  | zero => rfl
  | succ m ih =>
    simp only [List.replicate_succ, List.contains_cons, ih, Bool.or_false]
    simp [h]

/-- Whitespace-freeness of a run of `'a'`s. -/
theorem nospace_replicate_a (n : ℕ) :
    ∀ c ∈ List.replicate n 'a', pyIsSpace c = false := by
  intro c hc
  rw [List.eq_of_mem_replicate hc]
  rfl

/-- Every member of an all-`'a'` token (cons form) is `'a'`. -/
theorem mem_cons_replicate_a {c : Char} {m : ℕ}
    (h : c ∈ 'a' :: List.replicate m 'a') : c = 'a' := by
  rcases List.mem_cons.mp h with h1 | h1
  · exact h1
  · exact List.eq_of_mem_replicate h1

/-- Stripping an all-`'a'` token is the identity. -/
theorem pyStripL_cons_a (m : ℕ) :
    pyStripL ('a' :: List.replicate m 'a') = 'a' :: List.replicate m 'a' :=
  pyStripL_eq_self _ (fun c hc => by rw [mem_cons_replicate_a hc]; rfl)

/-- Sign splitting leaves an all-`'a'` token unsigned. -/
theorem pySign_cons_a (m : ℕ) :
    pySign ('a' :: List.replicate m 'a') = (false, 'a' :: List.replicate m 'a') := rfl

/-- Lemma: `int()` fails on a run of `'a'`s. -/
theorem pyParseInt_cons_a (m : ℕ) :
    pyParseInt ('a' :: List.replicate m 'a') = none := by
  simp only [pyParseInt, pyStripL_cons_a, pySign_cons_a]
  rfl

/-- Lemma: `float()` fails on a run of `'a'`s. -/
theorem pyParseFloat_cons_a (m : ℕ) :
    pyParseFloat ('a' :: List.replicate m 'a') = none := by
  have he : ('a' :: List.replicate m 'a').contains 'e' = false := by
    simp [List.contains_cons, contains_replicate_a m 'e' (by decide)]
  have hE : ('a' :: List.replicate m 'a').contains 'E' = false := by
    simp [List.contains_cons, contains_replicate_a m 'E' (by decide)]
  have hdot : ('a' :: List.replicate m 'a').contains '.' = false := by
    simp [List.contains_cons, contains_replicate_a m '.' (by decide)]
  simp only [pyParseFloat, pyStripL_cons_a, pySign_cons_a]
  simp [he, hE, hdot, digitsU, List.map_replicate]

/-- Lemma: `_unpack` returns a raw run of `'a'`s as the string itself. -/
theorem unpackL_cons_a (m : ℕ) :
    unpackL ('a' :: List.replicate m 'a')
      = .str (String.mk ('a' :: List.replicate m 'a')) := by
  simp only [unpackL, pyParseInt_cons_a, pyParseFloat_cons_a]
  rfl

/-- Lemma: `_unpack` on a run of `'a'`s of any length, zero included. -/
theorem unpackL_replicate_a (n : ℕ) :
    unpackL (List.replicate n 'a') = .str (String.mk (List.replicate n 'a')) := by
  cases n with
  | zero => rfl
  | succ m => simpa [List.replicate_succ] using unpackL_cons_a m

/-- Whether `needle` occurs as a contiguous run inside `hay`. -/
def containsSub (needle : List Char) : List Char → Bool
| [] => needle.isEmpty
| c :: rest => needle.isPrefixOf (c :: rest) || containsSub needle rest

/-! ## The claims -/

/-- C1.  The spec claims `decode(encode(v)) == v` for every well-formed
value.  The code breaks it already at the empty list: `encode([])` is the
literal `"[]"` (encoder.py:13), which the decoder treats as one inline line
without a `:`, producing `[{}]` (decoder.py:139-148) — not `[]`. -/
theorem c1_roundtrip_fails_on_empty_list :
    encode ([] : List Value) = .ok "[]"
    ∧ decode "[]" = .ok [Value.map []]
    ∧ [Value.map []] ≠ ([] : List Value) :=
  ⟨rfl, rfl, by simp⟩

/-- C2.  The spec claims a `strict` flag (default true) raising `E001` on a
declared/actual row-count mismatch.  `decode` takes no such flag and never
reads the declared count: a table declaring 3 rows with 2 data rows decodes
to its 2 rows with no error. -/
theorem c2_declared_row_count_ignored :
    decode "@1.0.3,rows[3]\x7bid:S\x7d,@100\n$1:1\n2"
      = .ok [Value.map [("id", Value.int 1)], Value.map [("id", Value.int 2)]]
    ∧ [Value.map [("id", Value.int 1)], Value.map [("id", Value.int 2)]].length = 2
    ∧ (2 : ℕ) ≠ 3 :=
  ⟨rfl, rfl, by decide⟩

/-- The enumeration order used by the counterexample to C3: the reverse of
the reference first-occurrence order.  Both are valid iteration orders of
the same Python set. -/
def c3RevEnum (l : List Value) : List Value := (dedupPyEq l).reverse

/-- The four-row column on which C3 fails: `ENUM` wins the tournament, and
the table comes from `list(set(...))`. -/
def c3Data : List Value :=
  [.map [("s", .str "alpha")], .map [("s", .str "beta")],
   .map [("s", .str "alpha")], .map [("s", .str "beta")]]

/-- C3.  The spec claims byte-equal output with a stable ENUM value table.
The table is `list(set(hashable_vals))` (encoder.py:193), whose iteration
order for strings depends on Python's per-process hash salt.  Two valid
enumeration orders of the same set — permutations of each other — yield
byte-different documents (`E(alpha,beta)` vs `E(beta,alpha)`, with every
data cell's index flipped). -/
theorem c3_enum_table_order_not_stable :
    (∀ l, (c3RevEnum l).Perm (defaultSetEnum l))
    ∧ encodeWith defaultSetEnum DEFAULT_ANCHOR_INTERVAL c3Data
        = .ok "@1.0.3,rows[4]\x7bs:E(alpha,beta)\x7d,@100\n$1:0\n1\n0\n1"
    ∧ encodeWith c3RevEnum DEFAULT_ANCHOR_INTERVAL c3Data
        = .ok "@1.0.3,rows[4]\x7bs:E(beta,alpha)\x7d,@100\n$1:1\n0\n1\n0"
    ∧ ("@1.0.3,rows[4]\x7bs:E(alpha,beta)\x7d,@100\n$1:0\n1\n0\n1" : String)
        ≠ "@1.0.3,rows[4]\x7bs:E(beta,alpha)\x7d,@100\n$1:1\n0\n1\n0" :=
  ⟨fun l => List.reverse_perm (dedupPyEq l), rfl, rfl, by decide⟩

/-- C4.  The spec claims NaN/±∞ serialise as `null`.  `_pack_value`
(encoder.py:278-284) runs them through `str()`, emitting `nan`, `inf`,
`-inf`; a document with a NaN leaf contains no `null` token at all. -/
theorem c4_special_floats_not_packed_as_null :
    packValue (.float .nan) = "nan"
    ∧ packValue (.float .inf) = "inf"
    ∧ packValue (.float .ninf) = "-inf"
    ∧ encode [.map [("a", .float .nan)]]
        = .ok "@1.0.3,rows[1]\x7ba:V(nan)\x7d,@100\n$1:nan"
    ∧ containsSub "null".toList
        ("@1.0.3,rows[1]\x7ba:V(nan)\x7d,@100\n$1:nan").toList = false :=
  ⟨rfl, rfl, rfl, rfl, by decide⟩

/-- C5.  The spec claims `__proto__` keys are silently dropped from decoded
output.  `_unflatten` (decoder.py:150-164) performs no key filtering: the
decoded document carries the `__proto__` key. -/
theorem c5_proto_key_appears_in_output :
    decode "__proto__.polluted:T"
      = .ok [.map [("__proto__", .map [("polluted", .bool true)])]]
    ∧ "__proto__" ∈ ([("__proto__", Value.map [("polluted", Value.bool true)])]).map
        Prod.fst :=
  ⟨rfl, by simp⟩

/-- C6.  The spec claims decode rejects inputs whose line exceeds
`MAX_LINE_LENGTH` (1 MiB) with `E302` before any row processing.
`ZonDecoder.decode` (decoder.py:10-14) performs no size check at all: for
every `n` — in particular every `n` beyond `MAX_LINE_LENGTH` — the
single-line document `k:aaaa…a` (length `n + 2`) decodes successfully to
its value, and the decoder's error type has no `E302` branch to begin
with. -/
theorem c6_no_line_length_limit (n : ℕ) :
    decode ("k:" ++ String.mk (List.replicate n 'a'))
      = .ok [.map [("k", .str (String.mk (List.replicate n 'a')))]] := by
  have hdata : ("k:" ++ String.mk (List.replicate n 'a')).toList
      = 'k' :: ':' :: List.replicate n 'a' := rfl
  have hne : ("k:" ++ String.mk (List.replicate n 'a')) ≠ "" := by
    intro h
    have h2 := congrArg String.toList h
    rw [hdata] at h2
    simp [String.toList] at h2
  have hmem : ∀ c ∈ 'k' :: ':' :: List.replicate n 'a',
      c = 'k' ∨ c = ':' ∨ c = 'a' := by
    intro c hc
    rcases List.mem_cons.mp hc with h1 | h1
    · exact Or.inl h1
    rcases List.mem_cons.mp h1 with h2 | h2
    · exact Or.inr (Or.inl h2)
    · exact Or.inr (Or.inr (List.eq_of_mem_replicate h2))
  have hnospace : ∀ c ∈ 'k' :: ':' :: List.replicate n 'a', pyIsSpace c = false := by
    intro c hc
    rcases hmem c hc with h | h | h <;> rw [h] <;> rfl
  have hsplitn : splitOnChar '\n' ('k' :: ':' :: List.replicate n 'a')
      = ['k' :: ':' :: List.replicate n 'a'] := by
    apply splitOnChar_eq_single
    intro x hx
    rcases hmem x hx with h | h | h <;> rw [h] <;> decide
  have hsplitc : splitOnChar ',' ('k' :: ':' :: List.replicate n 'a')
      = ['k' :: ':' :: List.replicate n 'a'] := by
    apply splitOnChar_eq_single
    intro x hx
    rcases hmem x hx with h | h | h <;> rw [h] <;> decide
  rw [decode, if_neg hne, hdata, pyStripL_eq_self _ hnospace, hsplitn]
  show (if !("@".toList.isPrefixOf ('k' :: ':' :: List.replicate n 'a'))
      then Except.ok (decodeInlineL ['k' :: ':' :: List.replicate n 'a'])
      else _) = _
  rw [show ("@".toList.isPrefixOf ('k' :: ':' :: List.replicate n 'a')) = false
      from rfl]
  simp only [Bool.not_false, if_pos]
  simp only [decodeInlineL, List.map_cons, List.map_nil, hsplitc, List.foldl_cons,
    List.foldl_nil]
  rw [show (('k' :: ':' :: List.replicate n 'a').contains ':') = true from rfl]
  simp only [if_pos, if_true]
  rw [show splitFirst ':' ('k' :: ':' :: List.replicate n 'a')
      = (['k'], List.replicate n 'a') from rfl]
  simp only [unpackL_replicate_a]
  rfl

/-- C8.  The spec (and the source's own comment, decoder.py:159) claims a
leaf whose intermediate segment is bound to a non-dict is dropped.  The
`continue` skips only that segment: the leaf of `a.b` lands at top-level
key `b` — present in the output, at the wrong path. -/
theorem c8_conflicting_leaf_relocated_not_dropped :
    unflatten [("a", .int 5), ("a.b", .int 7)]
      = .map [("a", .int 5), ("b", .int 7)]
    ∧ assocGetStr [("a", Value.int 5), ("b", Value.int 7)] "b"
        = some (.int 7) :=
  ⟨rfl, rfl⟩

/-- C9.  Empty-cell synthesis (`_calc_val`, decoder.py:113-118, dispatched
at decoder.py:63-64): RANGE yields `start + idx·step`, PATTERN formats
`start + idx·step` through the template, LIQUID yields the previous value,
VALUE its declared default, and SOLID/MULT/ENUM/DELTA all fall back to the
previous value; an empty cell in a non-anchor row goes through exactly this
function. -/
theorem c9_empty_cell_synthesis :
    (∀ s st idx prev, calcVal (.range s st) idx prev
        = .ok (.float (PFloat.add s (PFloat.mul (.fin (Frac.ofNat idx)) st))))
    ∧ (∀ a b idx prev, calcVal (.range (.fin a) (.fin b)) idx prev
        = .ok (.float (.fin (a.add ((Frac.ofNat idx).mul b)))))
    ∧ calcVal (.range (.fin (Frac.ofInt 1)) (.fin (Frac.ofInt 2))) 3 .null
        = .ok (.float (.fin ⟨7, 1⟩))
    ∧ (∀ tpl s st idx prev, calcVal (.pattern tpl s st) idx prev
        = (pyFormat tpl (s + (idx : ℤ) * st)).map .str)
    ∧ calcVal (.pattern "ORD-\x7b:03d\x7d" 1 1) 4 .null = .ok (.str "ORD-005")
    ∧ (∀ idx prev, calcVal .liquid idx prev = .ok prev)
    ∧ (∀ d idx prev, calcVal (.value d) idx prev = .ok d)
    ∧ (∀ idx prev, calcVal .solid idx prev = .ok prev)
    ∧ (∀ f idx prev, calcVal (.mult f) idx prev = .ok prev)
    ∧ (∀ tbl idx prev, calcVal (.enum tbl) idx prev = .ok prev)
    ∧ (∀ b idx prev, calcVal (.delta b) idx prev = .ok prev)
    ∧ (∀ rule dict curr prev, decodeCell rule "" dict curr prev false
        = calcVal rule curr prev) :=
  ⟨fun _ _ _ _ => rfl, fun _ _ _ _ => rfl, rfl, fun _ _ _ _ _ => rfl, rfl,
   fun _ _ => rfl, fun _ _ _ => rfl, fun _ _ => rfl, fun _ _ _ => rfl,
   fun _ _ _ => rfl, fun _ _ _ => rfl, fun _ _ _ _ => rfl⟩

/-- C10.  An ENUM cell whose literal decodes to an out-of-range integer
index is kept as the raw integer, with no error (decoder.py:73-75): the
guard `0 <= val < len(enum_map)` simply skips the table lookup. -/
theorem c10_enum_out_of_range_index_kept (tbl : List Value) (tok : String)
    (v : ℤ) (dict : List String) (curr : ℕ) (prev : Value) (anchor : Bool)
    (hu : unpack tok = .int v)
    (hne : ¬(tok = "" ∧ anchor = false))
    (hdr : (DICT_REF_PREFIX'.toList.isPrefixOf tok.toList
            && isdigitL (tok.toList.drop 1)) = false)
    (hout : v < 0 ∨ (tbl.length : ℤ) ≤ v) :
    decodeCell (.enum tbl) tok dict curr prev anchor = .ok (.int v) := by
  have h1 : (decide (tok = "") && !anchor) = false := by
    cases anchor with
    | true => simp
    | false =>
      have ht : tok ≠ "" := fun h => hne ⟨h, rfl⟩
      simp [ht]
  rw [decodeCell]
  rw [if_neg (show ¬((decide (tok = "") && !anchor) = true) by rw [h1]; decide)]
  rw [if_neg (show ¬((DICT_REF_PREFIX'.toList.isPrefixOf tok.toList
      && isdigitL (tok.toList.drop 1)) = true) by rw [hdr]; decide)]
  rw [hu]
  have hrange : ¬(0 ≤ v ∧ v < (tbl.length : ℤ)) := by
    intro hc
    rcases hout with h | h <;> omega
  simp [hrange]

/-- C10 witness: the concrete out-of-range index `7` against a two-entry
table decodes to the integer `7` itself. -/
theorem c10_enum_out_of_range_index_kept_witness :
    decodeCell (.enum [.str "a", .str "b"]) "7" [] 0 .null false
      = .ok (.int 7) :=
  c10_enum_out_of_range_index_kept [.str "a", .str "b"] "7" 7 [] 0 .null false
    rfl (by simp) (by decide) (by decide)

end Zon
